import Mathlib

/-!
Shallow embedding of the `veil` redaction library.

The redaction engine (`src/private.rs`) is modelled over `List Char`,
mirroring Rust's per-`char` (Unicode scalar value) iteration.  Rust's
Unicode character classification (`char::is_alphanumeric`,
`char::is_whitespace`) is passed in as explicit predicates `alnum` and
`ws`; theorems quantify over them (Rust guarantees that no character is
both whitespace and alphanumeric, which appears as a hypothesis where
needed).  `asciiAlnum` / `asciiWs` are concrete instantiations that agree
with Rust's tables on the ASCII inputs used in examples.

The global toggle (`src/toggle.rs`) is modelled as explicit state passing
over an `Option RedactionBehavior` standing for the `OnceCell`.

The proc-macro policy resolution (`veil-macros/src/{flags,fmt,structs,enums,lib}.rs`)
is modelled on already-parsed flag records; token streams are abstracted
to `FieldBody` values that record whether a field is rendered redacted
or plain, and the `UnusedDiagnostic` flag is threaded explicitly.
-/

namespace Veil

/-! ### Engine data model, from `src/private.rs` -/

/-- `RedactSpecialization` from `src/private.rs`. -/
inductive RedactSpecialization
  | Option
deriving DecidableEq

/-- `RedactionLength` from `src/private.rs`; the `NonZeroU8` payload of
`Fixed` is carried as a `Nat` (the range invariant is established by the
macro-side width parser, see `parseFixedWidth`). -/
inductive RedactionLength
  | Full
  | Partial
  | Fixed (n : Nat)
deriving DecidableEq

/-- `RedactionContent` from `src/private.rs`. -/
inductive RedactionContent
  | Asterisks
  | Char (c : Char)
  | Str (s : List Char)
deriving DecidableEq

/-- `RedactFlags` from `src/private.rs`. -/
structure RedactFlags where
  redact_length : RedactionLength
  redact_content : RedactionContent
deriving DecidableEq

/-- `RedactFlags::MIN_PARTIAL_CHARS`. -/
def MIN_PARTIAL_CHARS : Nat := 5

/-- `RedactFlags::MAX_PARTIAL_EXPOSE`. -/
def MAX_PARTIAL_EXPOSE : Nat := 3

/-- The left-to-right gas loop inside `RedactFlags::redact_partial_with_char`
(`src/private.rs` lines 93-109): `pGas` is `prefix_gas`, `mGas` is
`middle_gas`. -/
def redactPartialGo (alnum : Char → Bool) (redactChar : Char) :
    List Char → Nat → Nat → List Char
  | [], _, _ => []
  | c :: rest, pGas, mGas =>
    if alnum c then
      if 0 < pGas then c :: redactPartialGo alnum redactChar rest (pGas - 1) mGas
      else if 0 < mGas then redactChar :: redactPartialGo alnum redactChar rest pGas (mGas - 1)
      else c :: redactPartialGo alnum redactChar rest pGas mGas
    else c :: redactPartialGo alnum redactChar rest pGas mGas

/-- `RedactFlags::redact_partial_with_char` from `src/private.rs`. -/
def redact_partial_with_char (alnum : Char → Bool) (toRedact : List Char)
    (redactChar : Char) (count : Nat) : List Char :=
  if count < MIN_PARTIAL_CHARS then
    toRedact.map (fun c => if alnum c then redactChar else c)
  else
    let redactCount := min (count / 3) MAX_PARTIAL_EXPOSE
    redactPartialGo alnum redactChar toRedact redactCount (count - redactCount - redactCount)

/-- `to_redact.chars().filter(|char| char.is_alphanumeric()).count()`. -/
def alnumCount (alnum : Char → Bool) (s : List Char) : Nat :=
  (s.filter alnum).length

/-- `RedactFlags::redact_partial` from `src/private.rs`. -/
def redact_partial_text (alnum : Char → Bool) (flags : RedactFlags)
    (toRedact : List Char) : List Char :=
  let count := alnumCount alnum toRedact
  match flags.redact_content with
  | RedactionContent.Asterisks => redact_partial_with_char alnum toRedact '*' count
  | RedactionContent.Char c => redact_partial_with_char alnum toRedact c count
  | RedactionContent.Str s => s

/-- `RedactFlags::redact_full_with_char` from `src/private.rs`. -/
def redact_full_with_char (alnum ws : Char → Bool) (toRedact : List Char)
    (redactChar : Char) : List Char :=
  toRedact.map (fun c => if ws c || !alnum c then c else redactChar)

/-- `RedactFlags::redact_full` from `src/private.rs`. -/
def redact_full_text (alnum ws : Char → Bool) (flags : RedactFlags)
    (toRedact : List Char) : List Char :=
  match flags.redact_content with
  | RedactionContent.Asterisks => redact_full_with_char alnum ws toRedact '*'
  | RedactionContent.Char c => redact_full_with_char alnum ws toRedact c
  | RedactionContent.Str s => s

/-- `RedactFlags::redact_fixed_str` from `src/private.rs`:
`for char in s.chars().take(width) { buf.push(char) }`. -/
def redact_fixed_str (width : Nat) (s : List Char) : List Char :=
  s.take width

/-- `RedactFlags::redact_fixed_char` from `src/private.rs`. -/
def redact_fixed_char (width : Nat) (c : Char) : List Char :=
  List.replicate width c

/-- `str::strip_prefix` for a literal pattern, specialised to lists of
characters as used with `"Some("`. -/
def stripLeading : List Char → List Char → Option (List Char)
  | [], s => some s
  | _ :: _, [] => none
  | p :: ps, c :: cs => if c = p then stripLeading ps cs else none

/-- `str::strip_suffix(')')` for a single-character pattern. -/
def stripLastChar (c : Char) (s : List Char) : Option (List Char) :=
  match s.reverse with
  | [] => none
  | x :: xs => if x = c then some xs.reverse else none

/-- The characters of `"Some("`. -/
def someOpen : List Char := ['S', 'o', 'm', 'e', '(']

/-- The characters of `"None"`. -/
def noneText : List Char := ['N', 'o', 'n', 'e']

/-- `RedactionBehavior` from `src/toggle.rs`. -/
inductive RedactionBehavior
  | Redact
  | Plaintext
deriving DecidableEq

/-- `RedactionBehavior::is_plaintext`. -/
def RedactionBehavior.is_plaintext : RedactionBehavior → Bool
  | RedactionBehavior.Plaintext => true
  | RedactionBehavior.Redact => false

/-- `<RedactionFormatter as Debug>::fmt` from `src/private.rs` (lines
193-248), with the already-resolved global toggle value passed in as
`behavior` and the rendered text of the target (`self.this.to_string()`)
passed in as `this`. -/
def formatterFmt (alnum ws : Char → Bool) (behavior : RedactionBehavior)
    (this : List Char) (flags : RedactFlags)
    (specialization : Option RedactSpecialization) : List Char :=
  if behavior.is_plaintext then this
  else
    match flags.redact_length with
    | RedactionLength.Fixed n =>
      match flags.redact_content with
      | RedactionContent.Asterisks => redact_fixed_char n '*'
      | RedactionContent.Char c => redact_fixed_char n c
      | RedactionContent.Str s => redact_fixed_str n s
    | _ =>
      match specialization with
      | some RedactSpecialization.Option =>
        if this = noneText then noneText
        else
          match (stripLeading someOpen this).bind (stripLastChar ')') with
          | some inner =>
            someOpen ++
              (if flags.redact_length = RedactionLength.Partial then
                redact_partial_text alnum flags inner
              else redact_full_text alnum ws flags inner) ++ [')']
          | none => redact_full_text alnum ws flags this
      | none =>
        if flags.redact_length = RedactionLength.Partial then
          redact_partial_text alnum flags this
        else redact_full_text alnum ws flags this

/-! ### Global toggle, from `src/toggle.rs` -/

/-- The state of the `DEBUG_FORMAT: OnceCell<RedactionBehavior>` cell. -/
abbrev ToggleState := Option RedactionBehavior

/-- `OnceCell::set(Plaintext)`: `veil::disable` from `src/toggle.rs`.
Returns `Except.error` with the rejected value when the cell is already
initialized, exactly as `OnceCell::set` does. -/
def disable (s : ToggleState) : Except RedactionBehavior Unit × ToggleState :=
  match s with
  | some v => (Except.error RedactionBehavior.Plaintext, some v)
  | none => (Except.ok (), some RedactionBehavior.Plaintext)

/-- `OnceCell::get_or_init`. -/
def getOrInit (s : ToggleState) (v : RedactionBehavior) :
    RedactionBehavior × ToggleState :=
  match s with
  | some w => (w, some w)
  | none => (v, some v)

/-- The `if let "1" | "on" = std::env::var("VEIL_DISABLE_REDACTION").unwrap_or_default().as_str()`
test in `get_redaction_behavior` (`src/toggle.rs` line 53). -/
def truthyEnv (envVal : Option String) : Bool :=
  let v := envVal.getD ""
  if v = "1" then true else if v = "on" then true else false

/-- `get_redaction_behavior` from `src/toggle.rs` (lines 52-58), with the
environment variable value and the cell state passed explicitly. -/
def get_redaction_behavior (envVal : Option String) (s : ToggleState) :
    RedactionBehavior × ToggleState :=
  if truthyEnv envVal then getOrInit s RedactionBehavior.Plaintext
  else getOrInit s RedactionBehavior.Redact

/-! ### Concrete ASCII instantiation of Rust's character classes -/

/-- ASCII fragment of Rust's `char::is_alphanumeric`; agrees with the
Unicode tables on every ASCII character. -/
def asciiAlnum (c : Char) : Bool := c.isAlphanum

/-- ASCII fragment of Rust's `char::is_whitespace`; agrees with the
Unicode tables on every ASCII character. -/
def asciiWs (c : Char) : Bool :=
  if c = ' ' then true
  else if c = '\t' then true
  else if c = '\n' then true
  else if c = '\x0d' then true
  else false

/-! ### Proc-macro policy resolution, from `veil-macros/src` -/

/-- `RedactFlags` from `veil-macros/src/flags.rs` (the macro-side flag
record, lines 124-130); the `NonZeroU8` payload of `Fixed` width is
carried as a `Nat` validated by `parseFixedWidth`. -/
structure MacroRedactFlags where
  redact_length : RedactionLength
  redact_char : Char
deriving DecidableEq

/-- `Default for RedactFlags` from `veil-macros/src/flags.rs`. -/
def defaultMacroRedactFlags : MacroRedactFlags :=
  { redact_length := RedactionLength.Full, redact_char := '*' }

/-- `FieldFlags` from `veil-macros/src/flags.rs` (lines 205-225). -/
structure FieldFlags where
  all : Bool
  variant : Bool
  skip : Bool
  display : Bool
  redact : MacroRedactFlags
deriving DecidableEq

/-- `Default for FieldFlags`. -/
def defaultFieldFlags : FieldFlags :=
  { all := false, variant := false, skip := false, display := false,
    redact := defaultMacroRedactFlags }

/-- `int.base10_parse::<u8>()` on a non-negative decimal literal `n`:
succeeds exactly when the value fits in eight bits. -/
def parseU8 (n : Nat) : Except String Nat :=
  if n ≤ 255 then Except.ok n
  else Except.error "number too large to fit in target type"

/-- The `fixed = <int>` width parser from `RedactFlags::try_parse_meta`
(`veil-macros/src/flags.rs` lines 161-183): `base10_parse::<u8>` followed
by `NonZeroU8::new`. -/
def parseFixedWidth (n : Nat) : Except String Nat :=
  match parseU8 n with
  | Except.error e => Except.error e
  | Except.ok k =>
    if k = 0 then Except.error "fixed redacting width must be greater than zero"
    else Except.ok k

/-- `FieldFlags::validate` from `veil-macros/src/flags.rs` (lines 268-290);
`skipAllowed` is `options.skip_allowed`. -/
def FieldFlags.validate (f : FieldFlags) (skipAllowed : Bool) : Except String Unit :=
  if f.skip then
    if !skipAllowed then Except.error "redact skip is not allowed here"
    else if f ≠ { defaultFieldFlags with skip := true, variant := f.variant } then
      Except.error "redact skip should not have any other modifiers present"
    else Except.ok ()
  else Except.ok ()

/-- A generated field body: either the plain `Debug` rendering of the
field, or a call into `veil::private::redact` carrying the resolved
flags. -/
inductive FieldBody
  | plain
  | redacted (flags : FieldFlags)
deriving DecidableEq

/-- Whether a field body actually redacts. -/
def FieldBody.isRedacted : FieldBody → Bool
  | FieldBody.plain => false
  | FieldBody.redacted _ => true

/-- `generate_redact_call` from `veil-macros/src/fmt.rs` (lines 154-183):
returns the generated body together with whether
`unused.redacted_something()` was invoked. -/
def generate_redact_call (flags : FieldFlags) : FieldBody × Bool :=
  if !flags.skip then (FieldBody.redacted flags, true) else (FieldBody.plain, false)

/-- Per-field flag resolution from `FormatData::impl_debug`
(`veil-macros/src/fmt.rs` lines 75-102): zero attributes inherit the
enclosing `all` flags, one attribute is parsed, validated (with
`skip_allowed = all_fields_flags.is_some()`) and checked against
struct-invalid modifiers, more than one attribute is an error. -/
def resolveFieldFlags (allFieldsFlags : Option FieldFlags)
    (attrs : List FieldFlags) : Except String (Option FieldFlags) :=
  match attrs with
  | [] => Except.ok allFieldsFlags
  | [flags] =>
    match flags.validate allFieldsFlags.isSome with
    | Except.error e => Except.error e
    | Except.ok _ =>
      if flags.variant then Except.error "redact variant is invalid for structs"
      else if flags.all then Except.error "redact all is invalid for struct fields"
      else Except.ok (some flags)
  | _ => Except.error "only one redact attribute is allowed per field"

/-- The field loop of `FormatData::impl_debug` (`veil-macros/src/fmt.rs`
lines 53-116), threading the `UnusedDiagnostic` flag (`unused = true`
means nothing has been redacted yet). -/
def implDebugFields (allFieldsFlags : Option FieldFlags) (unused : Bool) :
    List (List FieldFlags) → Except String (List FieldBody × Bool)
  | [] => Except.ok ([], unused)
  | attrs :: rest =>
    match resolveFieldFlags allFieldsFlags attrs with
    | Except.error e => Except.error e
    | Except.ok none =>
      match implDebugFields allFieldsFlags unused rest with
      | Except.error e => Except.error e
      | Except.ok (bodies, unusedEnd) => Except.ok (FieldBody.plain :: bodies, unusedEnd)
    | Except.ok (some flags) =>
      let body := (generate_redact_call flags).1
      let used := (generate_redact_call flags).2
      match implDebugFields allFieldsFlags (unused && !used) rest with
      | Except.error e => Except.error e
      | Except.ok (bodies, unusedEnd) => Except.ok (body :: bodies, unusedEnd)

/-- Top-level attribute handling of `structs::derive_redact`
(`veil-macros/src/structs.rs` lines 14-40), with
`FieldFlags::extract::<1>(&attrs, false)` inlined. -/
def parseTopLevelStruct (attrs : List FieldFlags) : Except String (Option FieldFlags) :=
  match attrs with
  | [] => Except.ok none
  | [flags] =>
    match flags.validate false with
    | Except.error e => Except.error e
    | Except.ok _ =>
      if flags.variant then Except.error "redact variant is invalid for structs"
      else if !flags.all then Except.error "at least redact all is required here"
      else Except.ok (some flags)
  | _ => Except.error "expected only one or zero redact all attributes"

/-- The `does nothing` diagnostic raised by `derive_redact`
(`veil-macros/src/lib.rs` lines 66-75). -/
def doesNothingMsg : String :=
  "derive Redact does nothing by default, you must specify at least one field to redact"

/-- `derive(Redact)` on a struct: `structs::derive_redact` composed with
the `UnusedDiagnostic` check of `derive_redact` in
`veil-macros/src/lib.rs`.  Each field is given by the list of its parsed
`#[redact(...)]` attributes. -/
def derive_redact_struct (topAttrs : List FieldFlags)
    (fields : List (List FieldFlags)) : Except String (List FieldBody) :=
  match parseTopLevelStruct topAttrs with
  | Except.error e => Except.error e
  | Except.ok top =>
    match implDebugFields top true fields with
    | Except.error e => Except.error e
    | Except.ok (bodies, unused) =>
      if unused then Except.error doesNothingMsg
      else Except.ok bodies

/-- The three kinds of enum variant fields. -/
inductive VariantKind
  | Named
  | Unnamed
  | Unit
deriving DecidableEq

/-- One enum variant as seen by the macro: its parsed attributes, its
kind, and its fields' parsed attributes. -/
structure EnumVariantInput where
  attrs : List FieldFlags
  kind : VariantKind
  fields : List (List FieldFlags)

/-- `EnumVariantFieldFlags` from `veil-macros/src/enums.rs`. -/
structure EnumVariantFieldFlags where
  variant_flags : Option FieldFlags
  all_fields_flags : Option FieldFlags

/-- Folding one parsed attribute into `EnumVariantFieldFlags`, the body of
the `for flags in [flags0, flags1]` loop in `enums::derive_redact`
(`veil-macros/src/enums.rs` lines 75-106). -/
def foldVariantAttr (acc : EnumVariantFieldFlags) (flags : FieldFlags) :
    Except String EnumVariantFieldFlags :=
  if flags.all && flags.variant then
    Except.error "redact all variant is invalid here, split into two separate attributes"
  else if flags.all then
    if acc.all_fields_flags.isSome then Except.error "a redact all is already present"
    else Except.ok { acc with all_fields_flags := some flags }
  else if flags.variant then
    if acc.variant_flags.isSome then Except.error "a redact variant is already present"
    else Except.ok { acc with variant_flags := some flags }
  else Except.error "expected redact all or redact variant, or both as separate attributes"

/-- Variant-level attribute collection from `enums::derive_redact`
(`veil-macros/src/enums.rs` lines 42-112), with
`FieldFlags::extract::<2>(&variant.attrs, top_level_flags.is_some())`
inlined: each attribute is validated in order, a third attribute is a
`too many` error, and the recognised shapes are dispatched as in the
source's `match`. -/
def collectVariantFlags (skipAllowed : Bool) (attrs : List FieldFlags) :
    Except String EnumVariantFieldFlags :=
  match attrs with
  | [] => Except.ok { variant_flags := none, all_fields_flags := none }
  | [flags] =>
    match flags.validate skipAllowed with
    | Except.error e => Except.error e
    | Except.ok _ =>
      if flags.all && flags.variant then
        Except.error "redact all variant is invalid here, split into two separate attributes"
      else if flags.all then
        Except.ok { variant_flags := none, all_fields_flags := some flags }
      else if flags.variant then
        Except.ok { variant_flags := some flags, all_fields_flags := none }
      else Except.error "expected redact all or redact variant, or both as separate attributes"
  | [flags0, flags1] =>
    match flags0.validate skipAllowed with
    | Except.error e => Except.error e
    | Except.ok _ =>
      match flags1.validate skipAllowed with
      | Except.error e => Except.error e
      | Except.ok _ =>
        match foldVariantAttr { variant_flags := none, all_fields_flags := none } flags0 with
        | Except.error e => Except.error e
        | Except.ok acc => foldVariantAttr acc flags1
  | flags0 :: flags1 :: _ =>
    match flags0.validate skipAllowed with
    | Except.error e => Except.error e
    | Except.ok _ =>
      match flags1.validate skipAllowed with
      | Except.error e => Except.error e
      | Except.ok _ => Except.error "too many redact attributes specified"

/-- Defaulting a variant's name flags from the enum-level flags
(`veil-macros/src/enums.rs` lines 114-119). -/
def applyTopDefault (top : Option FieldFlags) (vf : EnumVariantFieldFlags) :
    EnumVariantFieldFlags :=
  match vf.variant_flags, top with
  | none, some t => { vf with variant_flags := some t }
  | _, _ => vf

/-- Top-level attribute handling of `enums::derive_redact`
(`veil-macros/src/enums.rs` lines 24-37): requires at least
`#[redact(all, variant)]`. -/
def parseTopLevelEnum (attrs : List FieldFlags) : Except String (Option FieldFlags) :=
  match attrs with
  | [] => Except.ok none
  | [flags] =>
    match flags.validate false with
    | Except.error e => Except.error e
    | Except.ok _ =>
      if !flags.all || !flags.variant then
        Except.error "at least redact all variant is required here to redact all variant names"
      else Except.ok (some flags)
  | _ => Except.error "too many redact attributes specified"

/-- The generated match-arm body for one enum variant: the body rendering
the variant's name and the bodies of its fields. -/
structure VariantBody where
  nameBody : FieldBody
  fieldBodies : List FieldBody
deriving DecidableEq

/-- Whether a variant body redacts its name or any field. -/
def VariantBody.anyRedacted (v : VariantBody) : Bool :=
  v.nameBody.isRedacted || v.fieldBodies.any FieldBody.isRedacted

/-- The body-generation loop of `enums::derive_redact`
(`veil-macros/src/enums.rs` lines 152-180): per variant, the name is
redacted when variant flags are present, then the fields are handled as
in the struct case; a unit variant with `all`-fields flags is an error.
`namePairOf` is the variant-name rendering of lines 154-160: a redact
call when variant flags are present, the plain name otherwise. -/
def namePairOf (vf : EnumVariantFieldFlags) : FieldBody × Bool :=
  match vf.variant_flags with
  | some f => generate_redact_call f
  | none => (FieldBody.plain, false)

def genVariantBodies (unused : Bool) :
    List (EnumVariantInput × EnumVariantFieldFlags) →
    Except String (List VariantBody × Bool)
  | [] => Except.ok ([], unused)
  | (v, vf) :: rest =>
    let namePair := namePairOf vf
    let nameBody := namePair.1
    let unused1 := unused && !namePair.2
    match v.kind with
    | VariantKind.Unit =>
      if vf.all_fields_flags.isSome then
        Except.error "unit structs do not need redacting as they contain no data"
      else
        match genVariantBodies unused1 rest with
        | Except.error e => Except.error e
        | Except.ok (outs, unusedEnd) =>
          Except.ok ({ nameBody := nameBody, fieldBodies := [] } :: outs, unusedEnd)
    | _ =>
      match implDebugFields vf.all_fields_flags unused1 v.fields with
      | Except.error e => Except.error e
      | Except.ok (bodies, unused2) =>
        match genVariantBodies unused2 rest with
        | Except.error e => Except.error e
        | Except.ok (outs, unusedEnd) =>
          Except.ok ({ nameBody := nameBody, fieldBodies := bodies } :: outs, unusedEnd)

/-- The flag-collection loop of `enums::derive_redact`
(`veil-macros/src/enums.rs` lines 40-122). -/
def collectAllVariantFlags (top : Option FieldFlags) :
    List EnumVariantInput → Except String (List EnumVariantFieldFlags)
  | [] => Except.ok []
  | v :: rest =>
    match collectVariantFlags top.isSome v.attrs with
    | Except.error e => Except.error e
    | Except.ok vf =>
      match collectAllVariantFlags top rest with
      | Except.error e => Except.error e
      | Except.ok vfs => Except.ok (applyTopDefault top vf :: vfs)

/-- `derive(Redact)` on an enum: `enums::derive_redact` composed with the
`UnusedDiagnostic` check of `derive_redact` in `veil-macros/src/lib.rs`. -/
def derive_redact_enum (topAttrs : List FieldFlags)
    (variants : List EnumVariantInput) : Except String (List VariantBody) :=
  match parseTopLevelEnum topAttrs with
  | Except.error e => Except.error e
  | Except.ok top =>
    match collectAllVariantFlags top variants with
    | Except.error e => Except.error e
    | Except.ok vfs =>
      match genVariantBodies true (variants.zip vfs) with
      | Except.error e => Except.error e
      | Except.ok (outs, unused) =>
        if unused then Except.error doesNothingMsg
        else Except.ok outs

/-- Decidable equality for `Except`, used to evaluate concrete runs of the
policy resolver. -/
instance {ε α : Type} [DecidableEq ε] [DecidableEq α] : DecidableEq (Except ε α) := fun x y =>
  match x, y with
  | Except.ok a, Except.ok b =>
    if h : a = b then isTrue (by rw [h]) else isFalse (fun he => h (by injection he))
  | Except.error a, Except.error b =>
    if h : a = b then isTrue (by rw [h]) else isFalse (fun he => h (by injection he))
  | Except.ok _, Except.error _ => isFalse (fun he => by injection he)
  | Except.error _, Except.ok _ => isFalse (fun he => by injection he)

/-- Modelled from the spec: the zone description of partial redaction
(§4.2 step 5) — among the `n` alphanumeric characters, the first `e` and
the last `e` (those with index `j ≥ n - e`) are kept verbatim, the middle
ones are replaced by the fill character, and non-alphanumerics pass
through; `j` counts the alphanumerics already seen. -/
def partialSpecZones (alnum : Char → Bool) (fill : Char) (e n : Nat) :
    List Char → Nat → List Char
  | [], _ => []
  | ch :: rest, j =>
    if alnum ch then
      (if j < e ∨ n - e ≤ j then ch else fill) :: partialSpecZones alnum fill e n rest (j + 1)
    else ch :: partialSpecZones alnum fill e n rest j

/-- Pointwise relation between an input character and the corresponding
output character of character-fill redaction: non-alphanumerics are
unchanged, alphanumerics are either kept or replaced by the fill. -/
def charRel (alnum : Char → Bool) (fill : Char) (a b : Char) : Prop :=
  (alnum a = false → b = a) ∧ (alnum a = true → b = a ∨ b = fill)

/-! ### Helper lemmas -/

/-- The gas loop of partial redaction computes exactly the zone
description: at alphanumeric index `j`, gas `(e - j, (n - e) - max j e)`
keeps the first `e` and the last alphanumerics from index `n - e` on. -/
theorem redactPartialGo_eq_zones (alnum : Char → Bool) (fill : Char) (e n : Nat)
    (s : List Char) : ∀ j : Nat,
    redactPartialGo alnum fill s (e - j) (n - e - max j e) =
      partialSpecZones alnum fill e n s j := by
  induction s with
  | nil => intro j; simp [redactPartialGo, partialSpecZones]
  | cons ch rest ih =>
    intro j
    by_cases ha : alnum ch = true
    · by_cases hj : j < e
      · have hpg : 0 < e - j := by omega
        have h1 : e - j - 1 = e - (j + 1) := by omega
        have h2 : n - e - max j e = n - e - max (j + 1) e := by omega
        simp only [redactPartialGo, partialSpecZones, ha, if_true, if_pos hpg,
          if_pos (Or.inl hj : j < e ∨ n - e ≤ j)]
        have hrec := ih (j + 1)
        rw [← h1, ← h2] at hrec
        exact congrArg (ch :: ·) hrec
      · have hpg : ¬ 0 < e - j := by omega
        by_cases hj2 : n - e ≤ j
        · have hmg : ¬ 0 < n - e - max j e := by omega
          have h1 : e - j = e - (j + 1) := by omega
          have h2 : n - e - max j e = n - e - max (j + 1) e := by omega
          simp only [redactPartialGo, partialSpecZones, ha, if_true, if_neg hpg,
            if_neg hmg, if_pos (Or.inr hj2 : j < e ∨ n - e ≤ j)]
          have hrec := ih (j + 1)
          rw [← h1, ← h2] at hrec
          exact congrArg (ch :: ·) hrec
        · have hmg : 0 < n - e - max j e := by omega
          have h1 : e - j = e - (j + 1) := by omega
          have h2 : n - e - max j e - 1 = n - e - max (j + 1) e := by omega
          have hcond : ¬ (j < e ∨ n - e ≤ j) := by omega
          simp only [redactPartialGo, partialSpecZones, ha, if_true, if_neg hpg,
            if_pos hmg, if_neg hcond]
          have hrec := ih (j + 1)
          rw [← h1, ← h2] at hrec
          exact congrArg (fill :: ·) hrec
    · have ha' : alnum ch = false := by
        cases h : alnum ch
        · rfl
        · exact absurd h ha
      simp only [redactPartialGo, partialSpecZones, ha', Bool.false_eq_true, if_false]
      exact congrArg (ch :: ·) (ih j)

/-- Character-fill full redaction relates input and output pointwise. -/
theorem forall2_full_with_char (alnum ws : Char → Bool) (fill : Char) :
    ∀ s : List Char,
      List.Forall₂ (charRel alnum fill) s (redact_full_with_char alnum ws s fill) := by
  intro s
  induction s with
  | nil => simp [redact_full_with_char]
  | cons ch rest ih =>
    simp only [redact_full_with_char, List.map_cons]
    refine List.Forall₂.cons ?_ ih
    constructor
    · intro h
      simp [h]
    · intro h
      by_cases hw : ws ch = true
      · simp [h, hw]
      · simp [h, hw]

/-- The partial-redaction gas loop relates input and output pointwise. -/
theorem forall2_go (alnum : Char → Bool) (fill : Char) :
    ∀ (s : List Char) (pg mg : Nat),
      List.Forall₂ (charRel alnum fill) s (redactPartialGo alnum fill s pg mg) := by
  intro s
  induction s with
  | nil => intro pg mg; simp [redactPartialGo]
  | cons ch rest ih =>
    intro pg mg
    by_cases ha : alnum ch = true
    · simp only [redactPartialGo, ha, if_true]
      by_cases hpg : 0 < pg
      · rw [if_pos hpg]
        exact List.Forall₂.cons ⟨fun h => rfl, fun _ => Or.inl rfl⟩ (ih _ _)
      · rw [if_neg hpg]
        by_cases hmg : 0 < mg
        · rw [if_pos hmg]
          refine List.Forall₂.cons ⟨fun h => ?_, fun _ => Or.inr rfl⟩ (ih _ _)
          rw [h] at ha; exact absurd ha (by simp)
        · rw [if_neg hmg]
          exact List.Forall₂.cons ⟨fun h => rfl, fun _ => Or.inl rfl⟩ (ih _ _)
    · have ha' : alnum ch = false := by
        cases h : alnum ch
        · rfl
        · exact absurd h ha
      simp only [redactPartialGo, ha', Bool.false_eq_true, if_false]
      exact List.Forall₂.cons ⟨fun _ => rfl, fun h => Or.inl rfl⟩ (ih _ _)

/-- Character-fill partial redaction relates input and output pointwise. -/
theorem forall2_partial_with_char (alnum : Char → Bool) (fill : Char)
    (s : List Char) (count : Nat) :
    List.Forall₂ (charRel alnum fill) s (redact_partial_with_char alnum s fill count) := by
  unfold redact_partial_with_char
  by_cases h : count < MIN_PARTIAL_CHARS
  · rw [if_pos h]
    induction s with
    | nil => simp
    | cons ch rest ih =>
      simp only [List.map_cons]
      refine List.Forall₂.cons ?_ ih
      constructor
      · intro hc; simp [hc]
      · intro hc; simp [hc]
  · rw [if_neg h]
    exact forall2_go alnum fill s _ _

/-- Character-fill full redaction is a fixed point of itself. -/
theorem full_with_char_idem (alnum ws : Char → Bool) (fill : Char) (s : List Char) :
    redact_full_with_char alnum ws (redact_full_with_char alnum ws s fill) fill =
      redact_full_with_char alnum ws s fill := by
  unfold redact_full_with_char
  rw [List.map_map]
  have hf : ∀ x : Char,
      (fun c => if ws c || !alnum c then c else fill)
        ((fun c => if ws c || !alnum c then c else fill) x) =
      (fun c => if ws c || !alnum c then c else fill) x := by
    intro x
    by_cases hx : (ws x || !alnum x) = true
    · simp [hx]
    · simp only [hx, if_false, Bool.false_eq_true]
      by_cases hfill : (ws fill || !alnum fill) = true
      · simp [hx, hfill]
      · simp [hx, hfill]
  rw [show ((fun c => if ws c || !alnum c then c else fill) ∘
      (fun c => if ws c || !alnum c then c else fill)) =
      (fun c : Char => if ws c || !alnum c then c else fill) from funext hf]

/-- `redacted_something` is invoked exactly when the generated body
redacts. -/
theorem gen_used_eq (f : FieldFlags) :
    (generate_redact_call f).2 = (generate_redact_call f).1.isRedacted := by
  unfold generate_redact_call
  by_cases h : f.skip <;> simp [h, FieldBody.isRedacted]

/-- The variant-name rendering invokes `redacted_something` exactly when
the name body redacts. -/
theorem namePair_used_eq (vf : EnumVariantFieldFlags) :
    (namePairOf vf).2 = (namePairOf vf).1.isRedacted := by
  unfold namePairOf
  cases vf.variant_flags with
  | none => simp [FieldBody.isRedacted]
  | some f => exact gen_used_eq f

/-- The `UnusedDiagnostic` flag threaded through the field loop equals
"nothing redacted so far and no generated body redacts". -/
theorem implDebugFields_unused :
    ∀ (fields : List (List FieldFlags)) (top : Option FieldFlags) (u : Bool)
      (bodies : List FieldBody) (uEnd : Bool),
      implDebugFields top u fields = Except.ok (bodies, uEnd) →
      uEnd = (u && !(bodies.any FieldBody.isRedacted)) := by
  intro fields
  induction fields with
  | nil =>
    intro top u bodies uEnd h
    simp only [implDebugFields, Except.ok.injEq, Prod.mk.injEq] at h
    obtain ⟨h1, h2⟩ := h
    simp [← h1, ← h2]
  | cons attrs rest ih =>
    intro top u bodies uEnd h
    simp only [implDebugFields] at h
    split at h
    · simp at h
    · split at h
      · simp at h
      · rename_i bodies' uMid heq
        simp only [Except.ok.injEq, Prod.mk.injEq] at h
        obtain ⟨h1, h2⟩ := h
        have h3 := ih top u bodies' uMid heq
        rw [← h2, ← h1, h3]
        simp [FieldBody.isRedacted]
    · rename_i flags hres
      split at h
      · simp at h
      · rename_i bodies' uMid heq
        simp only [Except.ok.injEq, Prod.mk.injEq] at h
        obtain ⟨h1, h2⟩ := h
        have h3 := ih top (u && !(generate_redact_call flags).2) bodies' uMid heq
        rw [← h2, ← h1, h3, gen_used_eq]
        simp [List.any_cons, Bool.not_or, Bool.and_assoc]

/-- The `UnusedDiagnostic` flag threaded through the variant loop equals
"nothing redacted so far and no variant redacts a name or a field". -/
theorem genVariantBodies_unused :
    ∀ (l : List (EnumVariantInput × EnumVariantFieldFlags)) (u : Bool)
      (outs : List VariantBody) (uEnd : Bool),
      genVariantBodies u l = Except.ok (outs, uEnd) →
      uEnd = (u && !(outs.any VariantBody.anyRedacted)) := by
  intro l
  induction l with
  | nil =>
    intro u outs uEnd h
    simp only [genVariantBodies, Except.ok.injEq, Prod.mk.injEq] at h
    obtain ⟨h1, h2⟩ := h
    simp [← h1, ← h2]
  | cons pv rest ih =>
    obtain ⟨v, vf⟩ := pv
    intro u outs uEnd h
    simp only [genVariantBodies] at h
    split at h
    · split at h
      · simp at h
      · split at h
        · simp at h
        · rename_i outs' uMid heq
          simp only [Except.ok.injEq, Prod.mk.injEq] at h
          obtain ⟨h1, h2⟩ := h
          have h3 := ih (u && !(namePairOf vf).2) outs' uMid heq
          rw [← h2, ← h1, h3, namePair_used_eq]
          simp [VariantBody.anyRedacted, List.any_cons, Bool.not_or, Bool.and_assoc]
    · split at h
      · simp at h
      · rename_i bodies uMid hfields
        split at h
        · simp at h
        · rename_i outs' uEnd' heq
          simp only [Except.ok.injEq, Prod.mk.injEq] at h
          obtain ⟨h1, h2⟩ := h
          have h3 := ih uMid outs' uEnd' heq
          have h4 := implDebugFields_unused v.fields vf.all_fields_flags
            (u && !(namePairOf vf).2) bodies uMid hfields
          rw [← h2, ← h1, h3, h4, namePair_used_eq]
          simp [VariantBody.anyRedacted, List.any_cons, Bool.not_or, Bool.and_assoc]

/-- `strip_prefix` on an exact-pattern-prefixed string yields the tail. -/
theorem stripLeading_append (p : List Char) : ∀ t : List Char,
    stripLeading p (p ++ t) = some t := by
  induction p with
  | nil => intro t; simp [stripLeading]
  | cons c cs ih => intro t; simp [stripLeading, ih]

/-- `strip_suffix(c)` on a string ending with `c` yields the front. -/
theorem stripLastChar_append (c : Char) (l : List Char) :
    stripLastChar c (l ++ [c]) = some l := by
  unfold stripLastChar
  rw [List.reverse_append]
  simp

/-- Rust guarantees that no character is both whitespace and
alphanumeric; this holds for the ASCII instantiation. -/
theorem ascii_disjoint : ∀ ch : Char, asciiWs ch = true → asciiAlnum ch = false := by
  intro ch h
  unfold asciiWs at h
  by_cases h1 : ch = ' '
  · subst h1; decide
  · by_cases h2 : ch = '\t'
    · subst h2; decide
    · by_cases h3 : ch = '\n'
      · subst h3; decide
      · by_cases h4 : ch = '\x0d'
        · subst h4; decide
        · simp [h1, h2, h3, h4] at h

/-! ### Claim theorems -/

/-- C1 (amended): in Redact mode, a policy with length `Fixed(n)` and
style `Str(lit)` emits the first `min(|lit|, n)` characters of `lit` —
the literal truncated to the declared width, never padded — independent
of the input string and of any specialization.  The claim's "no
truncation" part is refuted by `c1_counterexample`. -/
theorem c1_amended (alnum ws : Char → Bool) (s : List Char)
    (spec : Option RedactSpecialization) (n : Nat) (lit : List Char) :
    formatterFmt alnum ws RedactionBehavior.Redact s
      { redact_length := RedactionLength.Fixed n,
        redact_content := RedactionContent.Str lit } spec = lit.take n := rfl

/-- C1 counterexample: with `Fixed(1)` and style `Str("[REDACTED]")` the
engine emits `"["` — the literal truncated to the declared width — not
the literal verbatim, refuting "no truncation ... the declared width n
ignored". -/
theorem c1_counterexample :
    formatterFmt asciiAlnum asciiWs RedactionBehavior.Redact "secret".toList
      { redact_length := RedactionLength.Fixed 1,
        redact_content := RedactionContent.Str "[REDACTED]".toList } none = "[".toList ∧
    "[".toList ≠ "[REDACTED]".toList := by decide

/-- C2 (code bug evidence): the toggle getter initializes to Plaintext on
first read exactly for the strings `"1"` and `"on"`; the documented
spellings `"true"`, `"TRUE"` and `"On"` (case-insensitive per the crate
docs and the claim) initialize to Redact instead. -/
theorem c2_env_spellings :
    get_redaction_behavior (some "true") none =
      (RedactionBehavior.Redact, some RedactionBehavior.Redact) ∧
    get_redaction_behavior (some "TRUE") none =
      (RedactionBehavior.Redact, some RedactionBehavior.Redact) ∧
    get_redaction_behavior (some "On") none =
      (RedactionBehavior.Redact, some RedactionBehavior.Redact) ∧
    (∀ v : String,
      (get_redaction_behavior (some v) none).1 = RedactionBehavior.Plaintext ↔
        (v = "1" ∨ v = "on")) := by
  refine ⟨by decide, by decide, by decide, ?_⟩
  intro v
  unfold get_redaction_behavior truthyEnv getOrInit
  by_cases h1 : v = "1"
  · simp [h1]
  · by_cases h2 : v = "on"
    · simp [h1, h2]
    · simp [h1, h2]

/-- C3 (amended): under Full and Partial lengths, the `Asterisks` and
`Char` styles redact character by character — the output corresponds
pointwise to the input (`charRel`): non-alphanumerics are never altered
in value or position and each alphanumeric is kept or replaced in place
by the single fill character; the `Str(lit)` style instead emits the
literal `lit` for both Full and Partial.  The claim's "for every
configured style" part is refuted by `c3_counterexample`. -/
theorem c3_amended (alnum ws : Char → Bool) (len : RedactionLength)
    (s lit : List Char) (c : Char) :
    (redact_full_text alnum ws ⟨len, RedactionContent.Str lit⟩ s = lit ∧
     redact_partial_text alnum ⟨len, RedactionContent.Str lit⟩ s = lit) ∧
    (redact_full_text alnum ws ⟨len, RedactionContent.Char c⟩ s =
        redact_full_with_char alnum ws s c ∧
     redact_full_text alnum ws ⟨len, RedactionContent.Asterisks⟩ s =
        redact_full_with_char alnum ws s '*' ∧
     redact_partial_text alnum ⟨len, RedactionContent.Char c⟩ s =
        redact_partial_with_char alnum s c (alnumCount alnum s) ∧
     redact_partial_text alnum ⟨len, RedactionContent.Asterisks⟩ s =
        redact_partial_with_char alnum s '*' (alnumCount alnum s)) ∧
    List.Forall₂ (charRel alnum c) s (redact_full_with_char alnum ws s c) ∧
    List.Forall₂ (charRel alnum c) s
      (redact_partial_with_char alnum s c (alnumCount alnum s)) := by
  refine ⟨⟨rfl, rfl⟩, ⟨rfl, rfl, rfl, rfl⟩, ?_, ?_⟩
  · exact forall2_full_with_char alnum ws c s
  · exact forall2_partial_with_char alnum c s _

/-- C3 counterexample: under Full length with style `Str("[REDACTED]")`
the engine emits the literal string, whose length differs from the
input's, refuting "each redacted alphanumeric character of the input is
replaced in place by one fill character ... for every configured
style". -/
theorem c3_counterexample :
    formatterFmt asciiAlnum asciiWs RedactionBehavior.Redact "abc".toList
      ⟨RedactionLength.Full, RedactionContent.Str "[REDACTED]".toList⟩ none =
      "[REDACTED]".toList ∧
    ("[REDACTED]".toList).length ≠ ("abc".toList).length := by decide

/-- C4: partial redaction with a character fill, where `n` is the count
of alphanumeric characters: if `n < 5` the result equals Full-mode
redaction of the same input (given Rust's guarantee that whitespace and
alphanumeric are disjoint); otherwise it equals the zone description
`partialSpecZones` — first `e = min(n / 3, 3)` alphanumerics and the
alphanumerics from index `n - e` on are kept, the middle `n - 2e` are
replaced by the fill, and non-alphanumerics pass through, zones
determined purely by position among alphanumerics; moreover
`redact("Hello, world!", Partial, Char('X')) = "HelXX, XXrld!"`. -/
theorem c4_partial_zones (alnum ws : Char → Bool) (fill : Char) (s : List Char)
    (hdisj : ∀ ch : Char, ws ch = true → alnum ch = false) :
    (alnumCount alnum s < 5 →
      redact_partial_with_char alnum s fill (alnumCount alnum s) =
        redact_full_with_char alnum ws s fill) ∧
    (5 ≤ alnumCount alnum s →
      redact_partial_with_char alnum s fill (alnumCount alnum s) =
        partialSpecZones alnum fill (min (alnumCount alnum s / 3) 3)
          (alnumCount alnum s) s 0) ∧
    formatterFmt asciiAlnum asciiWs RedactionBehavior.Redact "Hello, world!".toList
      ⟨RedactionLength.Partial, RedactionContent.Char 'X'⟩ none =
      "HelXX, XXrld!".toList := by
  refine ⟨?_, ?_, by decide⟩
  · intro h
    unfold redact_partial_with_char redact_full_with_char
    rw [if_pos (show alnumCount alnum s < MIN_PARTIAL_CHARS from h)]
    have hfun : (fun ch => if alnum ch then fill else ch) =
        (fun ch : Char => if ws ch || !alnum ch then ch else fill) := by
      funext ch
      by_cases ha : alnum ch = true
      · have hw : ws ch = false := by
          cases hw : ws ch
          · rfl
          · rw [hdisj ch hw] at ha
            exact absurd ha (by simp)
        simp [ha, hw]
      · have ha' : alnum ch = false := by
          cases hx : alnum ch
          · rfl
          · exact absurd hx ha
        simp [ha']
    rw [hfun]
  · intro h
    unfold redact_partial_with_char
    rw [if_neg (show ¬ alnumCount alnum s < MIN_PARTIAL_CHARS by
      unfold MIN_PARTIAL_CHARS; omega)]
    have hz := redactPartialGo_eq_zones alnum fill
      (min (alnumCount alnum s / 3) MAX_PARTIAL_EXPOSE) (alnumCount alnum s) s 0
    rw [Nat.sub_zero, Nat.zero_max] at hz
    rw [show MAX_PARTIAL_EXPOSE = 3 from rfl] at hz
    exact hz

/-- C4 witness: the theorem instantiated at the ASCII classifiers, fill
`'X'`, at a short input (`"ab!"`, fewer than 5 alphanumerics) and at
`"Hello, world!"` (10 alphanumerics). -/
theorem c4_partial_zones_witness :
    (redact_partial_with_char asciiAlnum "ab!".toList 'X'
        (alnumCount asciiAlnum "ab!".toList) =
      redact_full_with_char asciiAlnum asciiWs "ab!".toList 'X') ∧
    (redact_partial_with_char asciiAlnum "Hello, world!".toList 'X'
        (alnumCount asciiAlnum "Hello, world!".toList) =
      partialSpecZones asciiAlnum 'X'
        (min (alnumCount asciiAlnum "Hello, world!".toList / 3) 3)
        (alnumCount asciiAlnum "Hello, world!".toList) "Hello, world!".toList 0) :=
  ⟨(c4_partial_zones asciiAlnum asciiWs 'X' "ab!".toList ascii_disjoint).1 (by decide),
   (c4_partial_zones asciiAlnum asciiWs 'X' "Hello, world!".toList ascii_disjoint).2.1
     (by decide)⟩

/-- C5: the global toggle is frozen at its first access — `disable`
succeeds exactly when the cell is untouched (no read and no prior set);
after any read, `disable` returns an error, leaves the state unchanged,
and subsequent reads return the frozen value. -/
theorem c5_toggle_frozen (env env2 : Option String) (s : ToggleState) :
    ((disable s).1 = Except.ok () ↔ s = none) ∧
    (disable (get_redaction_behavior env s).2).1 = Except.error RedactionBehavior.Plaintext ∧
    (disable (get_redaction_behavior env s).2).2 = (get_redaction_behavior env s).2 ∧
    get_redaction_behavior env2 (disable (get_redaction_behavior env s).2).2 =
      get_redaction_behavior env2 (get_redaction_behavior env s).2 := by
  unfold get_redaction_behavior getOrInit disable
  by_cases he : truthyEnv env = true <;> cases s <;> simp [he]

/-- C6: under Full or Partial length with the Option specialization, the
input `"None"` passes through unchanged; an input of shape
`"Some(" ++ inner ++ ")"` is rewritten to `"Some(" ++ r ++ ")"` with `r`
the inner text redacted by the Full/Partial rules; any other shape is
fully redacted as a whole; and
`redact("Some(Doe)", Partial, Option) = "Some(***)"`. -/
theorem c6_option_specialization (alnum ws : Char → Bool) (flags : RedactFlags)
    (s inner : List Char)
    (hlen : flags.redact_length = RedactionLength.Full ∨
            flags.redact_length = RedactionLength.Partial) :
    formatterFmt alnum ws RedactionBehavior.Redact noneText flags
      (some RedactSpecialization.Option) = noneText ∧
    formatterFmt alnum ws RedactionBehavior.Redact (someOpen ++ inner ++ [')']) flags
      (some RedactSpecialization.Option) =
      someOpen ++ (if flags.redact_length = RedactionLength.Partial then
          redact_partial_text alnum flags inner
        else redact_full_text alnum ws flags inner) ++ [')'] ∧
    (s ≠ noneText → (stripLeading someOpen s).bind (stripLastChar ')') = none →
      formatterFmt alnum ws RedactionBehavior.Redact s flags
        (some RedactSpecialization.Option) = redact_full_text alnum ws flags s) ∧
    formatterFmt asciiAlnum asciiWs RedactionBehavior.Redact "Some(Doe)".toList
      ⟨RedactionLength.Partial, RedactionContent.Asterisks⟩
      (some RedactSpecialization.Option) = "Some(***)".toList := by
  obtain ⟨len, content⟩ := flags
  have hne : someOpen ++ (inner ++ [')']) ≠ noneText := by
    intro he
    have := congrArg List.length he
    simp [someOpen, noneText] at this
  have hstrip : (stripLeading someOpen (someOpen ++ (inner ++ [')']))).bind
      (stripLastChar ')') = some inner := by
    rw [stripLeading_append]
    simp [stripLastChar_append]
  rcases hlen with h | h <;> subst h
  · refine ⟨?_, ?_, ?_, by decide⟩
    · simp [formatterFmt, RedactionBehavior.is_plaintext]
    · simp [formatterFmt, RedactionBehavior.is_plaintext, hne, hstrip]
    · intro hs hstrip2
      simp [formatterFmt, RedactionBehavior.is_plaintext, hs, hstrip2]
  · refine ⟨?_, ?_, ?_, by decide⟩
    · simp [formatterFmt, RedactionBehavior.is_plaintext]
    · simp [formatterFmt, RedactionBehavior.is_plaintext, hne, hstrip]
    · intro hs hstrip2
      simp [formatterFmt, RedactionBehavior.is_plaintext, hs, hstrip2]

/-- C6 witness: the theorem instantiated with a Partial policy, at the
`"None"` input and at the unrecognized shape `"Hmm"` (which falls back to
full redaction). -/
theorem c6_witness :
    formatterFmt asciiAlnum asciiWs RedactionBehavior.Redact noneText
      ⟨RedactionLength.Partial, RedactionContent.Asterisks⟩
      (some RedactSpecialization.Option) = noneText ∧
    formatterFmt asciiAlnum asciiWs RedactionBehavior.Redact "Hmm".toList
      ⟨RedactionLength.Partial, RedactionContent.Asterisks⟩
      (some RedactSpecialization.Option) =
      redact_full_text asciiAlnum asciiWs
        ⟨RedactionLength.Partial, RedactionContent.Asterisks⟩ "Hmm".toList :=
  ⟨(c6_option_specialization asciiAlnum asciiWs
      ⟨RedactionLength.Partial, RedactionContent.Asterisks⟩ "Hmm".toList "ab".toList
      (Or.inr rfl)).1,
   (c6_option_specialization asciiAlnum asciiWs
      ⟨RedactionLength.Partial, RedactionContent.Asterisks⟩ "Hmm".toList "ab".toList
      (Or.inr rfl)).2.2.1 (by decide) (by decide)⟩

/-- C7: policy resolution accepts a struct or enum only when at least one
generated body actually redacts (a field, or for enums a field or a
variant name); in particular a struct whose every field is annotated
`skip` under a type-level `all` default is rejected with the "does
nothing" error. -/
theorem c7_zero_redactions_rejected
    (topAttrs : List FieldFlags) (fields : List (List FieldFlags))
    (bodies : List FieldBody) (etop : List FieldFlags)
    (variants : List EnumVariantInput) (outs : List VariantBody) :
    (derive_redact_struct topAttrs fields = Except.ok bodies →
      bodies.any FieldBody.isRedacted = true) ∧
    (derive_redact_enum etop variants = Except.ok outs →
      outs.any VariantBody.anyRedacted = true) ∧
    derive_redact_struct [{ defaultFieldFlags with all := true }]
      [[{ defaultFieldFlags with skip := true }],
       [{ defaultFieldFlags with skip := true }]] =
      Except.error doesNothingMsg := by
  refine ⟨?_, ?_, by decide⟩
  · intro h
    unfold derive_redact_struct at h
    split at h
    · simp at h
    · rename_i top hparse
      split at h
      · simp at h
      · rename_i bodies' unused heq
        split at h
        · simp at h
        · rename_i hu
          simp only [Except.ok.injEq] at h
          have h3 := implDebugFields_unused fields top true bodies' unused heq
          simp only [Bool.true_and] at h3
          rw [← h]
          by_cases hany : bodies'.any FieldBody.isRedacted = true
          · exact hany
          · exfalso
            apply hu
            rw [h3]
            simp only [Bool.not_eq_true] at hany
            simp [hany]
  · intro h
    unfold derive_redact_enum at h
    split at h
    · simp at h
    · rename_i top hparse
      split at h
      · simp at h
      · rename_i vfs hcollect
        split at h
        · simp at h
        · rename_i outs' unused heq
          split at h
          · simp at h
          · rename_i hu
            simp only [Except.ok.injEq] at h
            have h3 := genVariantBodies_unused (variants.zip vfs) true outs' unused heq
            simp only [Bool.true_and] at h3
            rw [← h]
            by_cases hany : outs'.any VariantBody.anyRedacted = true
            · exact hany
            · exfalso
              apply hu
              rw [h3]
              simp only [Bool.not_eq_true] at hany
              simp [hany]

/-- C7 witness: the theorem applied to a struct with a single redacted
field and to an enum with a single name-redacted unit variant. -/
theorem c7_witness :
    ([FieldBody.redacted defaultFieldFlags].any FieldBody.isRedacted = true) ∧
    ([({ nameBody := FieldBody.redacted { defaultFieldFlags with variant := true },
         fieldBodies := [] } : VariantBody)].any VariantBody.anyRedacted = true) :=
  ⟨(c7_zero_redactions_rejected [] [[defaultFieldFlags]]
      [FieldBody.redacted defaultFieldFlags] []
      [{ attrs := [{ defaultFieldFlags with variant := true }],
         kind := VariantKind.Unit, fields := [] }]
      [{ nameBody := FieldBody.redacted { defaultFieldFlags with variant := true },
         fieldBodies := [] }]).1 (by decide),
   (c7_zero_redactions_rejected [] [[defaultFieldFlags]]
      [FieldBody.redacted defaultFieldFlags] []
      [{ attrs := [{ defaultFieldFlags with variant := true }],
         kind := VariantKind.Unit, fields := [] }]
      [{ nameBody := FieldBody.redacted { defaultFieldFlags with variant := true },
         fieldBodies := [] }]).2.1 (by decide)⟩

/-- C8 (amended): a `skip` annotation validates only where an enclosing
"redact all" default applies (`skip_allowed`), an accepted skip forces
the item back to "not redacted", and a skip annotation may carry no
modifier other than `variant` — validation succeeds exactly when
`skip_allowed` holds and `all`, `display` and the redaction options are
at their defaults.  The claim's "no other modifier" part is refuted by
`c8_skip_with_variant_accepted`. -/
theorem c8_skip_rules (f : FieldFlags) (allowed : Bool) (top : FieldFlags) :
    (f.skip = true →
      ((FieldFlags.validate f allowed = Except.ok ()) ↔
        (allowed = true ∧ f.all = false ∧ f.display = false ∧
          f.redact = defaultMacroRedactFlags))) ∧
    (f.skip = true → (generate_redact_call f).1 = FieldBody.plain) ∧
    (f.skip = true → f.variant = false → f.all = false → f.display = false →
      f.redact = defaultMacroRedactFlags →
      resolveFieldFlags (some top) [f] = Except.ok (some f) ∧
      (generate_redact_call f).1 = FieldBody.plain) := by
  obtain ⟨fa, fv, fs, fd, fr⟩ := f
  refine ⟨?_, ?_, ?_⟩
  · intro hs
    simp only at hs
    subst hs
    cases allowed
    · simp [FieldFlags.validate]
    · have hval : FieldFlags.validate ⟨fa, fv, true, fd, fr⟩ true =
          (if (⟨fa, fv, true, fd, fr⟩ : FieldFlags) ≠
              { defaultFieldFlags with skip := true, variant := fv } then
            Except.error "redact skip should not have any other modifiers present"
          else Except.ok ()) := by
        simp [FieldFlags.validate]
      rw [hval]
      by_cases hcond : (⟨fa, fv, true, fd, fr⟩ : FieldFlags) =
          { defaultFieldFlags with skip := true, variant := fv }
      · rw [if_neg (not_not_intro hcond)]
        simp only [defaultFieldFlags, FieldFlags.mk.injEq] at hcond
        simp [hcond]
      · rw [if_pos hcond]
        constructor
        · intro hok
          exact absurd hok (by simp)
        · rintro ⟨_, h1, h2, h3⟩
          exfalso
          apply hcond
          simp only at h1 h2 h3
          simp [defaultFieldFlags, FieldFlags.mk.injEq, h1, h2, h3, defaultMacroRedactFlags]
  · intro hs
    simp only at hs
    subst hs
    simp [generate_redact_call]
  · intro hs hv ha hd hr2
    simp only at hs hv ha hd hr2
    subst hs
    subst hv
    subst ha
    subst hd
    subst hr2
    constructor
    · simp [resolveFieldFlags, FieldFlags.validate, defaultFieldFlags]
    · simp [generate_redact_call]

/-- C8 counterexample: a skip annotation combined with the `variant`
modifier passes validation, refuting "any skip annotation combined with
another modifier is rejected with an error". -/
theorem c8_skip_with_variant_accepted :
    FieldFlags.validate { defaultFieldFlags with skip := true, variant := true } true =
      Except.ok () ∧
    ({ defaultFieldFlags with skip := true, variant := true } : FieldFlags).variant = true := by
  decide

/-- C8 witness: the theorem applied to a plain skip annotation under an
enclosing "redact all" default. -/
theorem c8_witness :
    ((FieldFlags.validate { defaultFieldFlags with skip := true } true = Except.ok ()) ↔
      (true = true ∧ ({ defaultFieldFlags with skip := true } : FieldFlags).all = false ∧
        ({ defaultFieldFlags with skip := true } : FieldFlags).display = false ∧
        ({ defaultFieldFlags with skip := true } : FieldFlags).redact =
          defaultMacroRedactFlags)) ∧
    (generate_redact_call { defaultFieldFlags with skip := true }).1 = FieldBody.plain ∧
    resolveFieldFlags (some { defaultFieldFlags with all := true })
        [{ defaultFieldFlags with skip := true }] =
      Except.ok (some { defaultFieldFlags with skip := true }) :=
  ⟨(c8_skip_rules { defaultFieldFlags with skip := true } true
      { defaultFieldFlags with all := true }).1 rfl,
   (c8_skip_rules { defaultFieldFlags with skip := true } true
      { defaultFieldFlags with all := true }).2.1 rfl,
   ((c8_skip_rules { defaultFieldFlags with skip := true } true
      { defaultFieldFlags with all := true }).2.2 rfl rfl rfl rfl rfl).1⟩

/-- C9: Full-mode redaction with a single fill character (an explicit
character or the default asterisk) is idempotent: redacting the result
again with the same policy yields the same string. -/
theorem c9_full_idempotent (alnum ws : Char → Bool) (len : RedactionLength)
    (c : Char) (s : List Char) :
    redact_full_text alnum ws ⟨len, RedactionContent.Char c⟩
        (redact_full_text alnum ws ⟨len, RedactionContent.Char c⟩ s) =
      redact_full_text alnum ws ⟨len, RedactionContent.Char c⟩ s ∧
    redact_full_text alnum ws ⟨len, RedactionContent.Asterisks⟩
        (redact_full_text alnum ws ⟨len, RedactionContent.Asterisks⟩ s) =
      redact_full_text alnum ws ⟨len, RedactionContent.Asterisks⟩ s := by
  constructor
  · simp only [redact_full_text]
    exact full_with_char_idem alnum ws c s
  · simp only [redact_full_text]
    exact full_with_char_idem alnum ws '*' s

/-- C10: the `fixed` width parser accepts exactly the integers 1 through
255 (zero and anything above 255 are rejected), and a parsed width `k`
yields Fixed-mode character output of length exactly `k`. -/
theorem c10_fixed_width_range (n k : Nat) (c : Char) (alnum ws : Char → Bool)
    (s : List Char) (spec : Option RedactSpecialization) :
    ((parseFixedWidth n).isOk = true ↔ (1 ≤ n ∧ n ≤ 255)) ∧
    (parseFixedWidth n = Except.ok k →
      k = n ∧ 1 ≤ k ∧ k ≤ 255 ∧ (redact_fixed_char k c).length = k ∧
      formatterFmt alnum ws RedactionBehavior.Redact s
        ⟨RedactionLength.Fixed k, RedactionContent.Char c⟩ spec = redact_fixed_char k c) := by
  constructor
  · constructor
    · intro hok
      by_cases hle : n ≤ 255
      · by_cases h0 : n = 0
        · exfalso
          subst h0
          simp [parseFixedWidth, parseU8, Except.isOk, Except.toBool] at hok
        · omega
      · exfalso
        simp [parseFixedWidth, parseU8, hle, Except.isOk, Except.toBool] at hok
    · rintro ⟨h1, h2⟩
      have h0 : ¬ n = 0 := by omega
      simp [parseFixedWidth, parseU8, h2, h0, Except.isOk, Except.toBool]
  · intro h
    have hle : n ≤ 255 := by
      by_contra hle
      simp [parseFixedWidth, parseU8, hle] at h
    have h0 : ¬ n = 0 := by
      intro h0
      subst h0
      simp [parseFixedWidth, parseU8] at h
    have hk : k = n := by
      simp [parseFixedWidth, parseU8, hle, h0] at h
      omega
    subst hk
    exact ⟨rfl, by omega, by omega, by simp [redact_fixed_char], rfl⟩

/-- C10 witness: the theorem applied at width 12. -/
theorem c10_witness :
    12 = 12 ∧ 1 ≤ 12 ∧ 12 ≤ 255 ∧ (redact_fixed_char 12 '*').length = 12 ∧
    formatterFmt asciiAlnum asciiWs RedactionBehavior.Redact "abc".toList
      ⟨RedactionLength.Fixed 12, RedactionContent.Char '*'⟩ none =
      redact_fixed_char 12 '*' :=
  (c10_fixed_width_range 12 12 '*' asciiAlnum asciiWs "abc".toList none).2 (by decide)

end Veil
